import Mathlib

-- Verification development for the process-network analysis engine of
-- BusinessProcessMermaidGenerator: the network analyzer and complexity scorer
-- (business_process_generator_v2/analysis.py), the operation model
-- (models.py), and the causal-loop analyzer (cld_analyzer.py).
-- Python dicts with insertion order are modelled as association lists,
-- Python sets as duplicate-free lists (only membership and cardinality are
-- used), pandas cells as Option values (none = NaN), and exception-raising
-- constructors as Except-valued functions.

set_option autoImplicit false

namespace BPMG

-- ## Python string primitives

/-- Model of Python str.strip on the character list: drop leading and
trailing whitespace. -/
def pyStripList (l : List Char) : List Char :=
  ((l.dropWhile Char.isWhitespace).reverse.dropWhile Char.isWhitespace).reverse

/-- Model of Python str.strip. -/
def pyStrip (s : String) : String := ⟨pyStripList s.data⟩

/-- Model of Python str.lower (ASCII portion, which is all the code uses
for its fixed keyword comparisons). -/
def pyLower (s : String) : String := ⟨s.data.map Char.toLower⟩

/-- Lexicographic comparison of character lists, mirroring Python string
comparison by code point. -/
def lexLtChars : List Char → List Char → Bool
  | [], [] => false
  | [], _ :: _ => true
  | _ :: _, [] => false
  | a :: as, b :: bs => if a < b then true else if b < a then false else lexLtChars as bs

/-- Python string less-than. -/
def strLt (a b : String) : Bool := lexLtChars a.data b.data

/-- Python min over a list of strings (empty list never occurs at call
sites; it is given a default). -/
def minString : List String → String
  | [] => ""
  | x :: xs => xs.foldl (fun m y => if strLt y m then y else m) x

/-- Order-preserving removal of duplicates, keeping the first occurrence:
the key order of a Python dict or the iteration order of a set built by
successive insertions. -/
def firstOccurrencesAux : List String → List String → List String
  | [], _ => []
  | x :: xs, seen =>
    if seen.contains x then firstOccurrencesAux xs seen
    else x :: firstOccurrencesAux xs (x :: seen)

def firstOccurrences (l : List String) : List String := firstOccurrencesAux l []

-- basic lemmas about pyStrip

theorem dropWhile_head_false {p : Char → Bool} {l r : List Char} {c : Char}
    (h : l.dropWhile p = c :: r) : p c = false := by
  induction l with
  | nil => simp at h
  | cons a as ih =>
    rw [List.dropWhile_cons] at h
    by_cases hp : p a = true
    · simp [hp] at h; exact ih h
    · simp [hp] at h ⊢; simp [← h.1]; simpa using hp

theorem dropWhile_idem (p : Char → Bool) (l : List Char) :
    (l.dropWhile p).dropWhile p = l.dropWhile p := by
  cases h : l.dropWhile p with
  | nil => simp
  | cons c r =>
    have := dropWhile_head_false h
    rw [List.dropWhile_cons]
    simp [this]

theorem stripList_idem_gen (p : Char → Bool) (l : List Char) :
    (((((l.dropWhile p).reverse.dropWhile p).reverse).dropWhile p).reverse.dropWhile p).reverse
      = ((l.dropWhile p).reverse.dropWhile p).reverse := by
  obtain ⟨t, ht⟩ : ∃ t, l.dropWhile p = ((l.dropWhile p).reverse.dropWhile p).reverse ++ t := by
    refine ⟨((l.dropWhile p).reverse.takeWhile p).reverse, ?_⟩
    conv_lhs => rw [← List.reverse_reverse (l.dropWhile p),
      ← List.takeWhile_append_dropWhile p (l.dropWhile p).reverse]
    rw [List.reverse_append]
  set b := ((l.dropWhile p).reverse.dropWhile p).reverse with hb
  have hfront : b.dropWhile p = b := by
    cases hbc : b with
    | nil => simp
    | cons c s =>
      have hhead : l.dropWhile p = c :: (s ++ t) := by rw [ht, hbc]; simp
      have hc := dropWhile_head_false hhead
      rw [List.dropWhile_cons]; simp [hc]
  rw [hfront]
  have hback : b.reverse.dropWhile p = b.reverse := by
    rw [hb, List.reverse_reverse]
    exact dropWhile_idem p (l.dropWhile p).reverse
  rw [hback, List.reverse_reverse]

theorem pyStripList_idem (l : List Char) : pyStripList (pyStripList l) = pyStripList l := by
  unfold pyStripList
  exact stripList_idem_gen Char.isWhitespace l

theorem pyStrip_idem (s : String) : pyStrip (pyStrip s) = pyStrip s := by
  unfold pyStrip
  exact congrArg String.mk (pyStripList_idem s.data)

theorem pyStrip_eq_empty_iff (s : String) : pyStrip s = "" ↔ pyStripList s.data = [] := by
  constructor
  · intro h
    have := congrArg String.data h
    simpa [pyStrip] using this
  · intro h
    apply String.ext
    simpa [pyStrip] using h

-- ## Data model (models.py)

/-- models.py Operation dataclass (the fields consumed by the analysis
engine; the value-stream metric fields are not read by any analysed code). -/
structure Operation where
  name : String
  outputs : List String := []
  inputs : List String := []
  subgroup : Option String := none
  node_text : String := ""
  group : String := ""
  owner : String := ""
  detailed : String := ""
deriving Repr, DecidableEq

/-- models.py Operation.__post_init__ / Operation._validate: reject an
empty or whitespace-only name (ValueError, modelled as Except.error),
strip the name, and keep only the stripped forms of those inputs/outputs
that are non-empty and not whitespace-only.  The subgroup is stripped and
a literal (case-insensitive) "nan" becomes None. -/
def Operation.validate (op : Operation) : Except String Operation :=
  if pyStrip op.name = "" then .error "Имя операции не может быть пустым"
  else
    .ok { op with
      name := pyStrip op.name
      outputs := (op.outputs.filter (fun o => o != "" && pyStrip o != "")).map pyStrip
      inputs := (op.inputs.filter (fun i => i != "" && pyStrip i != "")).map pyStrip
      subgroup :=
        match op.subgroup with
        | none => none
        | some sg =>
            if sg = "" then some sg
            else if pyLower (pyStrip sg) = "nan" then none else some (pyStrip sg) }

/-- Python str.split(";") on the character list. -/
def splitSemiChars : List Char → List (List Char)
  | [] => [[]]
  | c :: rest =>
      match splitSemiChars rest with
      | [] => [[c]]
      | h :: t => if c = ';' then [] :: h :: t else (c :: h) :: t

/-- Python str.split(";"). -/
def pySplitSemi (s : String) : List String := (splitSemiChars s.data).map String.mk

/-- data_loader.py _extract_inputs: an absent (NaN) cell yields nothing; a
cell whose stripped text is empty or exactly the "—" placeholder yields
nothing; otherwise the cell is split on ";" and each piece with non-empty
strip contributes its stripped form. -/
def extract_inputs (cell : Option String) : List String :=
  match cell with
  | none => []
  | some t =>
      if pyStrip t != "" && pyStrip t != "—" then
        (pySplitSemi t).filterMap (fun i => if pyStrip i = "" then none else some (pyStrip i))
      else []

-- ## Network analyzer (business_process_generator_v2/analysis.py)

/-- The two caller-supplied thresholds read by analyse_network (the only
fields of the Choices dataclass the analysis consumes). -/
structure Choices where
  critical_min_inputs : Nat := 3
  critical_min_reuse : Nat := 3
deriving Repr, DecidableEq

structure MergePoint where
  operation : String
  input_count : Nat
  inputs : List String
deriving Repr, DecidableEq

structure SplitPoint where
  output : String
  source_operation : String
  target_count : Nat
  targets : List String
deriving Repr, DecidableEq

structure CriticalPoint where
  operation : String
  inputs_count : Nat
  output_reuse : Nat
deriving Repr, DecidableEq

structure ProcessAnalysis where
  merge_points : List MergePoint
  split_points : List SplitPoint
  critical_points : List CriticalPoint
  external_inputs : List String
  final_outputs : List String
  operations_count : Nat
  subgroups_count : Nat
  groups_count : Nat
  owners_count : Nat
deriving Repr, DecidableEq

/-- AnalysisData; the two lookup dicts are modelled as an association list
(output_to_operation, insertion-ordered) and a lookup function
(input_to_operations: a missing key reads as the empty list, exactly the
.get(x, []) / defaultdict behaviour of the source). -/
structure AnalysisData where
  external_inputs : List String
  final_outputs : List String
  output_to_operation : List (String × String)
  input_to_operations : String → List String
  analysis : ProcessAnalysis

/-- Union of all operation inputs, in iteration order (set semantics:
only membership is consumed). -/
def all_inputs (operations : List (String × Operation)) : List String :=
  operations.flatMap (fun p => p.2.inputs)

def all_outputs (operations : List (String × Operation)) : List String :=
  operations.flatMap (fun p => p.2.outputs)

/-- The defaultdict input_to_operations of analyse_network: for each
operation in insertion order, each non-empty occurrence of the item among
its inputs appends the operation name. -/
def input_to_operations (operations : List (String × Operation)) (item : String) : List String :=
  operations.flatMap (fun p =>
    (p.2.inputs.filter (fun i => i != "" && i == item)).map (fun _ => p.1))

/-- One pass of the output_to_operation loop body of analyse_network over
the outputs of a single operation: a non-empty output not yet present is
appended with this operation name. -/
def insert_outputs (name : String) : List String → List (String × String) → List (String × String)
  | [], m => m
  | out :: rest, m =>
      insert_outputs name rest
        (if out != "" && (m.lookup out).isNone then m ++ [(out, name)] else m)

/-- The output_to_operation dict of analyse_network (first producer wins). -/
def build_output_to_operation (operations : List (String × Operation)) : List (String × String) :=
  operations.foldl (fun m p => insert_outputs p.1 p.2.outputs m) []

/-- analysis.py analyze_process_patterns.  The single source loop appending
to two lists is rendered as the two corresponding comprehensions; the
source guard `output in input_to_operations and len(...) > 1` collapses to
the length test because a key is present in the defaultdict exactly when
its list is non-empty. -/
def analyze_process_patterns (operations : List (String × Operation))
    (itop : String → List String) : List MergePoint × List SplitPoint :=
  (operations.filterMap (fun p =>
      if p.2.inputs.length > 1 then
        some ⟨p.1, p.2.inputs.length, p.2.inputs⟩
      else none),
   operations.flatMap (fun p =>
      (p.2.outputs.filter (fun o => (itop o).length > 1)).map
        (fun o => ⟨o, p.1, (itop o).length, itop o⟩)))

/-- Python max over a list of naturals; the source guards the call so the
list is never empty, the default matches its `else 0` ternary. -/
def maxNat : List Nat → Nat
  | [] => 0
  | x :: xs => xs.foldl Nat.max x

/-- The super-critical-operation loop of analyse_network: skip operations
with no outputs; otherwise qualify when the input count reaches
critical_min_inputs and the maximal consumer count over the outputs
reaches critical_min_reuse. -/
def critical_points_calc (operations : List (String × Operation)) (choices : Choices)
    (itop : String → List String) : List CriticalPoint :=
  operations.filterMap (fun p =>
    if p.2.outputs.isEmpty then none
    else
      if choices.critical_min_inputs ≤ p.2.inputs.length ∧
          choices.critical_min_reuse ≤ maxNat (p.2.outputs.map (fun out => (itop out).length)) then
        some ⟨p.1, p.2.inputs.length, maxNat (p.2.outputs.map (fun out => (itop out).length))⟩
      else none)

/-- The qualifying-metadata accumulation of analyse_network: a field
enters its set when truthy, with non-blank strip, and strip different from
the literal string "nan". -/
def metadata_set (values : List (Option String)) : List String :=
  firstOccurrences (values.filterMap (fun v =>
    match v with
    | none => none
    | some s => if s != "" && pyStrip s != "" && pyStrip s != "nan" then some s else none))

/-- analysis.py analyse_network. -/
def analyse_network (operations : List (String × Operation)) (choices : Choices) :
    AnalysisData :=
  let ai := all_inputs operations
  let ao := all_outputs operations
  let external_inputs := firstOccurrences (ai.filter (fun x => !ao.contains x))
  let final_outputs := firstOccurrences (ao.filter (fun x => !ai.contains x))
  let otop := build_output_to_operation operations
  let itop := input_to_operations operations
  let mp_sp := analyze_process_patterns operations itop
  let crit := critical_points_calc operations choices itop
  let analysis : ProcessAnalysis :=
    { merge_points := mp_sp.1
      split_points := mp_sp.2
      critical_points := crit
      external_inputs := external_inputs
      final_outputs := final_outputs
      operations_count := operations.length
      subgroups_count := (metadata_set (operations.map (fun p => p.2.subgroup))).length
      groups_count := (metadata_set (operations.map (fun p => some p.2.group))).length
      owners_count := (metadata_set (operations.map (fun p => some p.2.owner))).length }
  { external_inputs := external_inputs
    final_outputs := final_outputs
    output_to_operation := otop
    input_to_operations := itop
    analysis := analysis }

-- ## Complexity scorer (analysis.py get_process_complexity_score)

/-- Python int() truncation toward zero on an exact rational. -/
def pyInt (q : ℚ) : ℤ := if 0 ≤ q then ⌊q⌋ else ⌈q⌉

/-- The score formula of get_process_complexity_score expressed over the
four raw counts it reads (operation, merge-point, split-point and
critical-point counts).  Weights 0.3/0.2/0.2/0.3 and ceilings 50/10/10/5
as in the source; arithmetic is exact rational arithmetic. -/
def complexity_of_counts (o m s c : Nat) : ℤ :=
  let op_score : ℚ := min ((o : ℚ) / 50) 1
  let merge_score : ℚ := min ((m : ℚ) / 10) 1
  let split_score : ℚ := min ((s : ℚ) / 10) 1
  let critical_score : ℚ := min ((c : ℚ) / 5) 1
  let total_score : ℚ :=
    op_score * (3 / 10) + merge_score * (1 / 5) + split_score * (1 / 5) +
      critical_score * (3 / 10)
  min 10 (pyInt (total_score * 10) + 1)

/-- analysis.py get_process_complexity_score. -/
def get_process_complexity_score (operations : List (String × Operation))
    (analysis_data : AnalysisData) : ℤ :=
  complexity_of_counts operations.length
    analysis_data.analysis.merge_points.length
    analysis_data.analysis.split_points.length
    analysis_data.analysis.critical_points.length

/-- The scoring formula as worded by the spec: normalize each count
against its ceiling, combine with the fixed weights, and take
min(10, floor(weighted_sum * 10) + 1).  Kept separate from the source
translation so the two can be compared. -/
def spec_weighted_sum (o m s c : Nat) : ℚ :=
  (3 / 10) * min ((o : ℚ) / 50) 1 + (1 / 5) * min ((m : ℚ) / 10) 1 +
    (1 / 5) * min ((s : ℚ) / 10) 1 + (3 / 10) * min ((c : ℚ) / 5) 1

def spec_complexity_score (o m s c : Nat) : ℤ :=
  min 10 (⌊spec_weighted_sum o m s c * 10⌋ + 1)

-- ## Causal-link model (models.py CausalLink, cld_analyzer.py)

structure CausalLink where
  source : String
  target : String
  influence : String
  strength : Option String := none
  operation : Option String := none
  include_in_cld : Bool := true
  description : String := ""
deriving Repr, DecidableEq

/-- models.py CausalLink.__post_init__ / _validate: reject an empty or
whitespace-only source or target and an influence outside {"+", "-"}
(ValueError, modelled as Except.error); on success store the stripped
source, target and influence. -/
def CausalLink.build (source target influence : String) (strength operation : Option String)
    (include_in_cld : Bool) (description : String) : Except String CausalLink :=
  if pyStrip source = "" then .error "Источник связи не может быть пустым"
  else if pyStrip target = "" then .error "Цель связи не может быть пустой"
  else if influence = "+" ∨ influence = "-" then
    .ok { source := pyStrip source, target := pyStrip target, influence := pyStrip influence,
          strength := strength, operation := operation,
          include_in_cld := include_in_cld, description := description }
  else .error "Некорректный знак влияния"

structure CLDStatistics where
  -- source dict key "variables" (the word is a reserved token in Lean)
  vars : Nat
  links : Nat
  positive_links : Nat
  negative_links : Nat
  loops : Nat
  total_rows_processed : Nat
deriving Repr, DecidableEq

structure CausalAnalysis where
  links : List CausalLink
  -- source field "variables" (the word is a reserved token in Lean)
  vars : List String
  feedback_loops : List (List String)
  source_type : String
  statistics : CLDStatistics
deriving Repr, DecidableEq

/-- cld_analyzer.py _calculate_cld_statistics. -/
def calculate_cld_statistics (links : List CausalLink) (variables_ : List String)
    (feedback_loops : List (List String)) : CLDStatistics :=
  let included := links.filter (fun l => l.include_in_cld)
  { vars := variables_.length
    links := included.length
    positive_links := (included.filter (fun l => l.influence == "+")).length
    negative_links := (included.filter (fun l => l.influence == "-")).length
    loops := feedback_loops.length
    total_rows_processed := links.length }

-- ## Feedback-loop detector (cld_analyzer.py find_feedback_loops)

structure DfsState where
  loops : List (List String)
  visited : List String
deriving Repr, DecidableEq

/-- The recursive dfs of find_feedback_loops.  Each child call receives a
copy of the current path, so the path is value-passed here; loops and the
global visited set are threaded state.  The fuel argument only bounds the
recursion depth for Lean; every call site supplies more fuel than the
depth the traversal can reach (each level of real recursion adds a fresh
node to visited). -/
def dfs_visit (adj : String → List String) : Nat → String → List String → DfsState → DfsState
  | 0, _, _, s => s
  | Nat.succ fuel, node, path, s =>
    if path.contains node then
      let loop := path.drop (path.indexOf node)
      if loop.length > 1 then
        let normalized := loop.drop (loop.indexOf (minString loop)) ++
          loop.take (loop.indexOf (minString loop))
        if s.loops.contains normalized then s
        else { s with loops := s.loops ++ [normalized] }
      else s
    else if s.visited.contains node then s
    else
      (adj node).foldl (fun acc nb => dfs_visit adj fuel nb (path ++ [node]) acc)
        { s with visited := s.visited ++ [node] }

/-- cld_analyzer.py find_feedback_loops: adjacency over the included links
only, one dfs per not-yet-visited source key in insertion order. -/
def find_feedback_loops (links : List CausalLink) : List (List String) :=
  let included := links.filter (fun l => l.include_in_cld)
  let adj := fun s => (included.filter (fun l => l.source == s)).map (fun l => l.target)
  let keys := firstOccurrences (included.map (fun l => l.source))
  let final := keys.foldl
    (fun st node =>
      if st.visited.contains node then st
      else dfs_visit adj (2 * links.length + 2) node [] st)
    ⟨[], []⟩
  final.loops

-- ## Causal-link builder (cld_analyzer.py)

/-- A pandas cell of the inclusion column, which the source inspects by
runtime type: bool, str, or a number. -/
inductive CellValue where
  | boolVal (b : Bool)
  | strVal (s : String)
  | numVal (n : Int)
deriving Repr, DecidableEq

/-- One row of the manual CLD table.  Cells are Option values (none =
NaN/absent); textual cells are carried already stringified, as the source
immediately applies str(...) to them. -/
structure CLDRow where
  source : Option String := none
  target : Option String := none
  influence : Option String := none
  include_cell : Option CellValue := none
  strength : Option String := none
  operation : Option String := none
  description : Option String := none
deriving Repr, DecidableEq

/-- The manual CLD DataFrame: its column set plus its rows. -/
structure CLDTable where
  columns : List String
  rows : List CLDRow
deriving Repr, DecidableEq

def required_cld_columns : List String := ["Источник", "Цель", "Знак влияния"]

/-- cld_analyzer.py _validate_influence_sign.  The Bool records whether
the unrecognized-sign warning was printed; the run always continues. -/
def validate_influence_sign (influence_value : Option String) : String × Bool :=
  match influence_value with
  | none => ("+", false)
  | some v =>
      let s := pyStrip v
      if s = "+" ∨ s = "положительное" ∨ s = "positive" ∨ s = "pos" then ("+", false)
      else if s = "-" ∨ s = "отрицательное" ∨ s = "negative" ∨ s = "neg" then ("-", false)
      else ("+", true)

/-- cld_analyzer.py _determine_inclusion. -/
def determine_inclusion (has_include_column : Bool) (cell : Option CellValue) : Bool :=
  if !has_include_column then true
  else
    match cell with
    | none => true
    | some (.boolVal b) => b
    | some (.strVal s) => ["true", "yes", "1", "да", "включить"].contains (pyLower s)
    | some (.numVal n) => n != 0

/-- Set insertion for the variables set, keeping first-insertion order. -/
def insertVar (vs : List String) (x : String) : List String :=
  if vs.contains x then vs else vs ++ [x]

/-- Accumulator of the row loop of analyze_causal_links_from_dataframe. -/
structure RowAcc where
  links : List CausalLink
  vars : List String
  valid_rows : Nat
deriving Repr, DecidableEq

/-- One iteration of the row loop of analyze_causal_links_from_dataframe:
skip when source or target is NaN or strips to empty; otherwise normalize
the influence sign and inclusion flag and append the constructed link
(whose constructor may raise, propagated as Except). -/
def process_row (has_include_column : Bool) (acc : RowAcc) (row : CLDRow) :
    Except String RowAcc :=
  match row.source, row.target with
  | none, _ => .ok acc
  | some _, none => .ok acc
  | some s0, some t0 =>
      let source := pyStrip s0
      let target := pyStrip t0
      if source = "" ∨ target = "" then .ok acc
      else do
        let influence := (validate_influence_sign row.influence).1
        let include_flag := determine_inclusion has_include_column row.include_cell
        let link ← CausalLink.build source target influence row.strength row.operation
          include_flag (row.description.getD "")
        .ok { links := acc.links ++ [link]
              vars := insertVar (insertVar acc.vars source) target
              valid_rows := acc.valid_rows + 1 }

/-- The per-row acceptance test of the row loop: source and target both
present (not NaN) and non-empty after stripping.  A row fails it exactly
when the loop skips it. -/
def row_survives (row : CLDRow) : Bool :=
  match row.source, row.target with
  | some s, some t => pyStrip s != "" && pyStrip t != ""
  | _, _ => false

/-- cld_analyzer.py analyze_causal_links_from_dataframe (manual mode).
The outer try/except re-raises CLDValidationError unchanged and wraps any
other exception, so every failure surfaces as a CLDValidationError;
failure is modelled as Except.error. -/
def analyze_causal_links_from_dataframe (df : CLDTable) : Except String CausalAnalysis :=
  if !(required_cld_columns.all (fun c => df.columns.contains c)) then
    .error "Отсутствуют обязательные колонки для CLD"
  else if df.rows.isEmpty then .error "CLD таблица не содержит данных"
  else
    match df.rows.foldlM (process_row (df.columns.contains "Учитывать в CLD")) ⟨[], [], 0⟩ with
    | .error e => .error ("Ошибка анализа CLD из DataFrame: " ++ e)
    | .ok acc =>
        if acc.valid_rows = 0 then
          .error "Не найдено валидных причинно-следственных связей"
        else
          .ok { links := acc.links, vars := acc.vars,
                feedback_loops := find_feedback_loops acc.links,
                source_type := "manual",
                statistics := calculate_cld_statistics acc.links acc.vars
                  (find_feedback_loops acc.links) }

/-- The variables set of automatic mode: every non-empty input and output
across all operations (filter(None, ...) drops only empty strings). -/
def cld_variables_auto (operations : List (String × Operation)) : List String :=
  firstOccurrences (operations.flatMap (fun p =>
    p.2.inputs.filter (fun x => x != "") ++ p.2.outputs.filter (fun x => x != "")))

/-- The link-building loop of analyze_causal_links_from_operations: one
link per (non-empty input, non-empty output) pair of each operation, in
iteration order; CausalLink construction may raise, propagated as Except. -/
def build_auto_links (operations : List (String × Operation)) :
    Except String (List CausalLink) :=
  operations.foldlM (fun acc p =>
    (p.2.inputs.filter (fun x => x != "")).foldlM (fun acc2 i =>
      (p.2.outputs.filter (fun x => x != "")).foldlM (fun acc3 o => do
        let link ← CausalLink.build i o "+" none (some p.1) true
          ("Создается операцией: " ++ p.1)
        pure (acc3 ++ [link])) acc2) acc) []

/-- cld_analyzer.py analyze_causal_links_from_operations (automatic mode). -/
def analyze_causal_links_from_operations (operations : List (String × Operation)) :
    Except String CausalAnalysis :=
  if operations.isEmpty then .error "Нет операций для анализа"
  else if (cld_variables_auto operations).isEmpty then
    .error "Не найдено переменных для построения CLD"
  else
    match build_auto_links operations with
    | .error e => .error ("Ошибка анализа CLD из операций: " ++ e)
    | .ok links =>
        .ok { links := links, vars := cld_variables_auto operations,
              feedback_loops := find_feedback_loops links,
              source_type := "auto",
              statistics := calculate_cld_statistics links (cld_variables_auto operations)
                (find_feedback_loops links) }

-- ## Concrete instances used by the theorems below

def linkAB : CausalLink := { source := "a", target := "b", influence := "+" }

def linkBC : CausalLink := { source := "b", target := "c", influence := "+" }

def linkCA : CausalLink := { source := "c", target := "a", influence := "+" }

def linkDE : CausalLink := { source := "d", target := "e", influence := "+" }

def linkCAexcluded : CausalLink :=
  { source := "c", target := "a", influence := "+", include_in_cld := false }

/-- An operation with three inputs and one output. -/
def opA3 : Operation := { name := "A", inputs := ["x", "y", "z"], outputs := ["o"] }

/-- The same operation with only two inputs. -/
def opA2 : Operation := { name := "A", inputs := ["x", "y"], outputs := ["o"] }

/-- A consumer of item "o". -/
def consumerOf (n : String) : Operation := { name := n, inputs := ["o"], outputs := [] }

/-- Operation map: A with 3 inputs, its single output consumed by 4 operations. -/
def ops3in : List (String × Operation) :=
  [("A", opA3), ("Q1", consumerOf "Q1"), ("Q2", consumerOf "Q2"),
   ("Q3", consumerOf "Q3"), ("Q4", consumerOf "Q4")]

/-- Same network but A has only 2 inputs. -/
def ops2in : List (String × Operation) :=
  [("A", opA2), ("Q1", consumerOf "Q1"), ("Q2", consumerOf "Q2"),
   ("Q3", consumerOf "Q3"), ("Q4", consumerOf "Q4")]

/-- P produces z; Q and R consume z. -/
def opsPQR : List (String × Operation) :=
  [("P", { name := "P", inputs := [], outputs := ["z"] }),
   ("Q", { name := "Q", inputs := ["z"], outputs := [] }),
   ("R", { name := "R", inputs := ["z"], outputs := [] })]

/-- Two producers of the same item "z", inserted in order A then B. -/
def opsTwoProducers : List (String × Operation) :=
  [("A", { name := "A", inputs := [], outputs := ["z"] }),
   ("B", { name := "B", inputs := [], outputs := ["z"] })]

/-- A manual-mode row that survives filtering. -/
def rowGood : CLDRow := { source := some "x", target := some "y", influence := some "+" }

/-- A manual-mode row skipped for missing target. -/
def rowSkip : CLDRow := { source := some "x", target := none, influence := some "+" }

/-- A manual CLD table with one accepted and one skipped row. -/
def dfTwoRows : CLDTable :=
  { columns := ["Источник", "Цель", "Знак влияния"], rows := [rowGood, rowSkip] }

/-- The analysis value produced for dfTwoRows. -/
def caTwoRows : CausalAnalysis :=
  { links := [{ source := "x", target := "y", influence := "+" }]
    vars := ["x", "y"]
    feedback_loops := []
    source_type := "manual"
    statistics := { vars := 2, links := 1, positive_links := 1, negative_links := 0,
                    loops := 0, total_rows_processed := 1 } }

/-- A table missing the influence-sign column. -/
def dfMissingColumn : CLDTable :=
  { columns := ["Источник", "Цель"], rows := [rowGood] }

/-- An operation record as passed to the Operation constructor, with a
duplicated input and a "—" output. -/
def opDupDash : Operation := { name := "A", inputs := ["x", "x"], outputs := ["—"] }

/-- What Operation._validate makes of opDupDash. -/
def opDupDashValidated : Operation := { name := "A", inputs := ["x", "x"], outputs := ["—"] }

-- ## C3: feedback-loop detection on the triangle a→b→c→a

/-- C3: on the included links a→b, b→c, c→a the detector returns exactly
one loop, of length 3, listing a, b, c in cyclic order starting from the
smallest element; adding a disconnected included link d→e leaves the
result unchanged; excluding c→a via include_in_cld = false removes the
loop entirely. -/
theorem feedback_loop_triangle_examples :
    find_feedback_loops [linkAB, linkBC, linkCA] = [["a", "b", "c"]] ∧
    find_feedback_loops [linkAB, linkBC, linkCA, linkDE] = [["a", "b", "c"]] ∧
    find_feedback_loops [linkAB, linkBC, linkCAexcluded] = [] := by
  refine ⟨by decide, by decide, by decide⟩

-- ## C6: what Operation construction does and does not clean

/-- C6 counterexample: constructing an Operation with a duplicated input
and a "—" output keeps both; _validate drops neither duplicates nor the
"—" placeholder. -/
theorem operation_validate_counterexample :
    Operation.validate opDupDash = .ok opDupDashValidated ∧
    ¬ opDupDashValidated.inputs.Nodup ∧
    "—" ∈ opDupDashValidated.outputs := by
  refine ⟨by rfl, by decide, by decide⟩

/-- C6 as amended: after construction every input and output is non-empty
and not whitespace-only (each item is stored stripped); duplicate items
and the "—" placeholder are not removed by construction.  The loader side:
_extract_inputs drops a cell that is entirely "—", but an individual "—"
among several ";"-separated items survives it. -/
theorem operation_validate_trimmed_nonempty (op0 op : Operation)
    (h : Operation.validate op0 = .ok op) :
    (∀ x ∈ op.inputs, x ≠ "" ∧ pyStrip x = x) ∧
    (∀ x ∈ op.outputs, x ≠ "" ∧ pyStrip x = x) ∧
    extract_inputs (some "—") = [] ∧
    extract_inputs (some "a; —; b") = ["a", "—", "b"] := by
  unfold Operation.validate at h
  by_cases hname : pyStrip op0.name = ""
  · simp [hname] at h
  · rw [if_neg hname] at h
    rw [Except.ok.injEq] at h
    subst h
    refine ⟨?_, ?_, by decide, by decide⟩
    · intro x hx
      simp only [List.mem_map, List.mem_filter] at hx
      obtain ⟨y, ⟨_, hy⟩, hxy⟩ := hx
      simp only [Bool.and_eq_true, bne_iff_ne, ne_eq] at hy
      constructor
      · rw [← hxy]; exact hy.2
      · rw [← hxy]; exact pyStrip_idem y
    · intro x hx
      simp only [List.mem_map, List.mem_filter] at hx
      obtain ⟨y, ⟨_, hy⟩, hxy⟩ := hx
      simp only [Bool.and_eq_true, bne_iff_ne, ne_eq] at hy
      constructor
      · rw [← hxy]; exact hy.2
      · rw [← hxy]; exact pyStrip_idem y

/-- Witness for the amended C6 at the concrete operation opDupDash. -/
theorem operation_validate_trimmed_nonempty_witness :
    (∀ x ∈ opDupDashValidated.inputs, x ≠ "" ∧ pyStrip x = x) ∧
    (∀ x ∈ opDupDashValidated.outputs, x ≠ "" ∧ pyStrip x = x) ∧
    extract_inputs (some "—") = [] ∧
    extract_inputs (some "a; —; b") = ["a", "—", "b"] :=
  operation_validate_trimmed_nonempty opDupDash opDupDashValidated (by rfl)

-- ## Lemmas about the manual-mode row loop

theorem validate_influence_sign_pm (v : Option String) :
    (validate_influence_sign v).1 = "+" ∨ (validate_influence_sign v).1 = "-" := by
  unfold validate_influence_sign
  cases v with
  | none => exact Or.inl rfl
  | some s =>
      dsimp only
      split_ifs with h1 h2
      · exact Or.inl rfl
      · exact Or.inr rfl
      · exact Or.inl rfl

theorem row_survives_true (row : CLDRow) :
    row_survives row = true ↔
      ∃ s0 t0, row.source = some s0 ∧ row.target = some t0 ∧
        pyStrip s0 ≠ "" ∧ pyStrip t0 ≠ "" := by
  unfold row_survives
  cases row.source with
  | none => simp
  | some s0 =>
      cases row.target with
      | none => simp
      | some t0 => simp

theorem process_row_skip (hic : Bool) (acc : RowAcc) (row : CLDRow)
    (h : row_survives row = false) : process_row hic acc row = .ok acc := by
  unfold process_row
  unfold row_survives at h
  cases hsrc : row.source with
  | none => rfl
  | some s0 =>
      cases htgt : row.target with
      | none => rfl
      | some t0 =>
          rw [hsrc, htgt] at h
          simp only [Bool.and_eq_false_iff, bne_eq_false_iff_eq] at h
          have hcond : pyStrip s0 = "" ∨ pyStrip t0 = "" := by
            rcases h with h | h
            · exact Or.inl h
            · exact Or.inr h
          simp only []
          rw [if_pos hcond]

theorem process_row_accept (hic : Bool) (acc : RowAcc) (row : CLDRow) (s0 t0 : String)
    (hsrc : row.source = some s0) (htgt : row.target = some t0)
    (hs : pyStrip s0 ≠ "") (ht : pyStrip t0 ≠ "") :
    ∃ link : CausalLink, process_row hic acc row =
      .ok { links := acc.links ++ [link]
            vars := insertVar (insertVar acc.vars (pyStrip s0)) (pyStrip t0)
            valid_rows := acc.valid_rows + 1 } := by
  unfold process_row
  rw [hsrc, htgt]
  have hcond : ¬ (pyStrip s0 = "" ∨ pyStrip t0 = "") := by tauto
  simp only []
  rw [if_neg hcond]
  unfold CausalLink.build
  rw [pyStrip_idem s0, pyStrip_idem t0, if_neg hs, if_neg ht]
  rcases validate_influence_sign_pm row.influence with hpm | hpm <;>
    · rw [hpm]
      simp only [if_pos]
      exact ⟨_, rfl⟩

theorem fold_rows_ok (hic : Bool) (rows : List CLDRow) : ∀ acc : RowAcc,
    ∃ acc2, rows.foldlM (process_row hic) acc = .ok acc2 ∧
      acc2.links.length = acc.links.length + rows.countP row_survives ∧
      acc2.valid_rows = acc.valid_rows + rows.countP row_survives := by
  induction rows with
  | nil => exact fun acc => ⟨acc, rfl, by simp, by simp⟩
  | cons r rest ih =>
      intro acc
      rw [List.foldlM_cons]
      by_cases hsv : row_survives r = true
      · obtain ⟨s0, t0, hsrc, htgt, hs, ht⟩ := (row_survives_true r).mp hsv
        obtain ⟨link, hstep⟩ := process_row_accept hic acc r s0 t0 hsrc htgt hs ht
        rw [hstep]
        obtain ⟨acc2, h1, h2, h3⟩ := ih _
        refine ⟨acc2, ?_, ?_, ?_⟩
        · simpa using h1
        · rw [h2]; simp [List.countP_cons, hsv]; omega
        · rw [h3]; simp [List.countP_cons, hsv]; omega
      · rw [process_row_skip hic acc r (by simpa using hsv)]
        obtain ⟨acc2, h1, h2, h3⟩ := ih acc
        refine ⟨acc2, by simpa using h1, ?_, ?_⟩
        · rw [h2, List.countP_cons]; simp [hsv]
        · rw [h3, List.countP_cons]; simp [hsv]

-- ## C5: what total_rows_processed actually counts

/-- C5 counterexample: on a two-row table whose second row is skipped for
a missing target, the reported total_rows_processed is 1, not the 2 rows
processed before filtering. -/
theorem total_rows_processed_counterexample :
    analyze_causal_links_from_dataframe dfTwoRows = .ok caTwoRows ∧
    caTwoRows.statistics.total_rows_processed = 1 ∧
    dfTwoRows.rows.length = 2 :=
  ⟨by rfl, by rfl, by rfl⟩

/-- C5 as amended: in manual mode the statistics block reports under
total_rows_processed the number of rows that survive the per-row
filtering, which equals the number of links built — not the pre-filter
row count. -/
theorem total_rows_processed_counts_accepted_rows (df : CLDTable) (ca : CausalAnalysis)
    (h : analyze_causal_links_from_dataframe df = .ok ca) :
    ca.statistics.total_rows_processed = df.rows.countP row_survives ∧
    ca.statistics.total_rows_processed = ca.links.length := by
  unfold analyze_causal_links_from_dataframe at h
  by_cases hcols : (required_cld_columns.all (fun c => df.columns.contains c)) = true
  · rw [if_neg (by rw [hcols]; decide)] at h
    by_cases hrows : df.rows.isEmpty = true
    · rw [if_pos hrows] at h
      exact absurd h (by simp)
    · rw [if_neg hrows] at h
      obtain ⟨acc2, hfold, hlen, hval⟩ :=
        fold_rows_ok (df.columns.contains "Учитывать в CLD") df.rows ⟨[], [], 0⟩
      rw [hfold] at h
      by_cases hvz : acc2.valid_rows = 0
      · simp only [hvz, if_pos] at h
        exact absurd h (by simp)
      · simp only [if_neg hvz] at h
        rw [Except.ok.injEq] at h
        subst h
        simp only [calculate_cld_statistics]
        refine ⟨by simpa using hlen, by trivial⟩
  · rw [if_pos (by rw [Bool.not_eq_true] at hcols; rw [hcols]; decide)] at h
    exact absurd h (by simp)

/-- Witness for the amended C5 at the concrete two-row table. -/
theorem total_rows_processed_counts_accepted_rows_witness :
    caTwoRows.statistics.total_rows_processed = dfTwoRows.rows.countP row_survives ∧
    caTwoRows.statistics.total_rows_processed = caTwoRows.links.length :=
  total_rows_processed_counts_accepted_rows dfTwoRows caTwoRows (by rfl)

-- ## C8: influence-sign normalization and row skipping

theorem row_survives_false_of (row : CLDRow)
    (h : row.source = none ∨ row.target = none ∨
      pyStrip (row.source.getD "") = "" ∨ pyStrip (row.target.getD "") = "") :
    row_survives row = false := by
  unfold row_survives
  cases hsrc : row.source with
  | none => rfl
  | some s0 =>
      cases htgt : row.target with
      | none => rfl
      | some t0 =>
          rw [hsrc, htgt] at h
          simp only [Option.getD_some, reduceCtorEq, false_or] at h
          simp only [Bool.and_eq_false_iff, bne_eq_false_iff_eq]
          tauto

/-- C8: the accepted influence encodings normalize as documented, any
other value normalizes to "+" with the warning flag set and without
aborting (process_row still returns ok on every row), and a row whose
source or target is missing or strips to empty is skipped outright,
leaving links, variables and the accepted-row count untouched. -/
theorem influence_sign_normalization :
    (∀ v ∈ (["+", "positive", "pos"] : List String),
      validate_influence_sign (some v) = ("+", false)) ∧
    (∀ v ∈ (["-", "negative", "neg"] : List String),
      validate_influence_sign (some v) = ("-", false)) ∧
    (∀ v : String,
      ¬ (pyStrip v = "+" ∨ pyStrip v = "положительное" ∨ pyStrip v = "positive" ∨
          pyStrip v = "pos") →
      ¬ (pyStrip v = "-" ∨ pyStrip v = "отрицательное" ∨ pyStrip v = "negative" ∨
          pyStrip v = "neg") →
      validate_influence_sign (some v) = ("+", true)) ∧
    (∀ (hic : Bool) (acc : RowAcc) (row : CLDRow),
      ∃ acc2, process_row hic acc row = .ok acc2) ∧
    (∀ (hic : Bool) (acc : RowAcc) (row : CLDRow),
      (row.source = none ∨ row.target = none ∨
        pyStrip (row.source.getD "") = "" ∨ pyStrip (row.target.getD "") = "") →
      process_row hic acc row = .ok acc) := by
  refine ⟨?_, ?_, ?_, ?_, ?_⟩
  · intro v hv
    fin_cases hv <;> decide
  · intro v hv
    fin_cases hv <;> decide
  · intro v h1 h2
    unfold validate_influence_sign
    dsimp only
    rw [if_neg h1, if_neg h2]
  · intro hic acc row
    by_cases hsv : row_survives row = true
    · obtain ⟨s0, t0, hsrc, htgt, hs, ht⟩ := (row_survives_true row).mp hsv
      obtain ⟨link, hstep⟩ := process_row_accept hic acc row s0 t0 hsrc htgt hs ht
      exact ⟨_, hstep⟩
    · exact ⟨acc, process_row_skip hic acc row (by simpa using hsv)⟩
  · intro hic acc row h
    exact process_row_skip hic acc row (row_survives_false_of row h)

/-- Witness for C8 at concrete values. -/
theorem influence_sign_normalization_witness :
    validate_influence_sign (some "positive") = ("+", false) ∧
    validate_influence_sign (some "xyz") = ("+", true) ∧
    process_row false ⟨[], [], 0⟩ rowSkip = .ok ⟨[], [], 0⟩ :=
  ⟨influence_sign_normalization.1 "positive" (by decide),
   influence_sign_normalization.2.2.1 "xyz" (by decide) (by decide),
   influence_sign_normalization.2.2.2.2 false ⟨[], [], 0⟩ rowSkip
     (Or.inr (Or.inl rfl))⟩

-- ## C7: exactly which inputs produce a validation error

theorem foldlM_ok_exists {α β : Type} (f : β → α → Except String β) (l : List α)
    (hf : ∀ acc x, x ∈ l → ∃ b, f acc x = .ok b) : ∀ acc, ∃ b, l.foldlM f acc = .ok b := by
  induction l with
  | nil => exact fun acc => ⟨acc, rfl⟩
  | cons x rest ih =>
      intro acc
      obtain ⟨b, hb⟩ := hf acc x (List.mem_cons_self x rest)
      rw [List.foldlM_cons, hb]
      obtain ⟨b2, hb2⟩ := ih (fun acc y hy => hf acc y (List.mem_cons_of_mem x hy)) b
      exact ⟨b2, by simpa using hb2⟩

theorem causal_build_ok (s t infl : String) (strength operation : Option String)
    (inc : Bool) (d : String) (hs : pyStrip s ≠ "") (ht : pyStrip t ≠ "")
    (hi : infl = "+" ∨ infl = "-") :
    ∃ link, CausalLink.build s t infl strength operation inc d = .ok link := by
  unfold CausalLink.build
  rw [if_neg hs, if_neg ht, if_pos hi]
  exact ⟨_, rfl⟩

theorem build_auto_links_ok (ops : List (String × Operation))
    (hv : ∀ p ∈ ops, (∀ x ∈ p.2.inputs, x ≠ "" → pyStrip x ≠ "") ∧
      (∀ x ∈ p.2.outputs, x ≠ "" → pyStrip x ≠ "")) :
    ∃ links, build_auto_links ops = .ok links := by
  unfold build_auto_links
  refine foldlM_ok_exists _ ops ?_ []
  intro acc p hp
  refine foldlM_ok_exists _ _ ?_ acc
  intro acc2 i hi
  refine foldlM_ok_exists _ _ ?_ acc2
  intro acc3 o ho
  obtain ⟨him, hine⟩ := List.mem_filter.mp hi
  obtain ⟨hom, hone⟩ := List.mem_filter.mp ho
  have hsi : pyStrip i ≠ "" := (hv p hp).1 i him (by simpa using hine)
  have hso : pyStrip o ≠ "" := (hv p hp).2 o hom (by simpa using hone)
  obtain ⟨link, hl⟩ := causal_build_ok i o "+" none (some p.1) true
    ("Создается операцией: " ++ p.1) hsi hso (Or.inl rfl)
  exact ⟨acc3 ++ [link], by rw [hl]; rfl⟩

/-- C7: the causal-link builder fails exactly on the input-shape cases.
Automatic mode (on operations whose non-empty items are not
whitespace-only, as Operation construction guarantees) fails iff the
operation mapping is empty or yields no variables; manual mode fails iff
a required column is missing, the table is empty, or no row survives the
per-row filtering. -/
theorem cld_validation_error_iff :
    (∀ ops : List (String × Operation),
      (∀ p ∈ ops, (∀ x ∈ p.2.inputs, x ≠ "" → pyStrip x ≠ "") ∧
        (∀ x ∈ p.2.outputs, x ≠ "" → pyStrip x ≠ "")) →
      ((∃ e, analyze_causal_links_from_operations ops = .error e) ↔
        (ops = [] ∨ cld_variables_auto ops = []))) ∧
    (∀ df : CLDTable,
      ((∃ e, analyze_causal_links_from_dataframe df = .error e) ↔
        ((required_cld_columns.all (fun c => df.columns.contains c)) = false ∨
          df.rows = [] ∨ df.rows.countP row_survives = 0))) := by
  constructor
  · intro ops hv
    unfold analyze_causal_links_from_operations
    by_cases h1 : ops.isEmpty = true
    · rw [if_pos h1]
      exact ⟨fun _ => Or.inl (List.isEmpty_iff.mp h1), fun _ => ⟨_, rfl⟩⟩
    · rw [if_neg h1]
      by_cases h2 : (cld_variables_auto ops).isEmpty = true
      · rw [if_pos h2]
        exact ⟨fun _ => Or.inr (List.isEmpty_iff.mp h2), fun _ => ⟨_, rfl⟩⟩
      · rw [if_neg h2]
        obtain ⟨links, hb⟩ := build_auto_links_ok ops hv
        rw [hb]
        constructor
        · rintro ⟨e, he⟩
          exact absurd he (by simp)
        · rintro (h | h)
          · exact absurd (List.isEmpty_iff.mpr h) h1
          · exact absurd (List.isEmpty_iff.mpr h) h2
  · intro df
    unfold analyze_causal_links_from_dataframe
    by_cases hcols : (required_cld_columns.all fun c => df.columns.contains c) = true
    · rw [if_neg (by rw [hcols]; decide)]
      by_cases hrows : df.rows.isEmpty = true
      · rw [if_pos hrows]
        exact ⟨fun _ => Or.inr (Or.inl (List.isEmpty_iff.mp hrows)), fun _ => ⟨_, rfl⟩⟩
      · rw [if_neg hrows]
        obtain ⟨acc2, hfold, hlen, hval⟩ :=
          fold_rows_ok (df.columns.contains "Учитывать в CLD") df.rows ⟨[], [], 0⟩
        rw [hfold]
        dsimp only
        dsimp only at hlen hval
        by_cases hvz : acc2.valid_rows = 0
        · constructor
          · intro _
            refine Or.inr (Or.inr ?_)
            omega
          · intro _
            exact ⟨"Не найдено валидных причинно-следственных связей", by rw [if_pos hvz]⟩
        · constructor
          · rintro ⟨e, he⟩
            simp only [if_neg hvz] at he
            exact absurd he (by simp)
          · rintro (h | h | h)
            · rw [h] at hcols
              exact absurd hcols (by decide)
            · exact absurd (List.isEmpty_iff.mpr h) hrows
            · omega
    · rw [if_pos (by rw [Bool.not_eq_true] at hcols; rw [hcols]; decide)]
      constructor
      · intro _
        refine Or.inl ?_
        rw [Bool.not_eq_true] at hcols
        exact hcols
      · intro _
        exact ⟨_, rfl⟩

/-- Witness for C7: the empty operation map fails, a table missing a
required column fails, and the two-row table with one accepted row does
not fail. -/
theorem cld_validation_error_iff_witness :
    (∃ e, analyze_causal_links_from_operations [] = .error e) ∧
    (∃ e, analyze_causal_links_from_dataframe dfMissingColumn = .error e) ∧
    ¬ (∃ e, analyze_causal_links_from_dataframe dfTwoRows = .error e) :=
  ⟨(cld_validation_error_iff.1 [] (by simp)).mpr (Or.inl rfl),
   (cld_validation_error_iff.2 dfMissingColumn).mpr (Or.inl (by decide)),
   fun h => by
     have h2 := (cld_validation_error_iff.2 dfTwoRows).mp h
     revert h2
     decide⟩

-- ## C9: complexity score formula, bounds and monotonicity

theorem spec_ws_nonneg (o m s c : Nat) : 0 ≤ spec_weighted_sum o m s c := by
  unfold spec_weighted_sum
  have h1 : (0 : ℚ) ≤ min ((o : ℚ) / 50) 1 := le_min (by positivity) (by norm_num)
  have h2 : (0 : ℚ) ≤ min ((m : ℚ) / 10) 1 := le_min (by positivity) (by norm_num)
  have h3 : (0 : ℚ) ≤ min ((s : ℚ) / 10) 1 := le_min (by positivity) (by norm_num)
  have h4 : (0 : ℚ) ≤ min ((c : ℚ) / 5) 1 := le_min (by positivity) (by norm_num)
  nlinarith

theorem complexity_eq_spec (o m s c : Nat) :
    complexity_of_counts o m s c = spec_complexity_score o m s c := by
  unfold complexity_of_counts spec_complexity_score pyInt
  dsimp only
  have heq : min ((o : ℚ) / 50) 1 * (3 / 10) + min ((m : ℚ) / 10) 1 * (1 / 5) +
      min ((s : ℚ) / 10) 1 * (1 / 5) + min ((c : ℚ) / 5) 1 * (3 / 10) =
      spec_weighted_sum o m s c := by
    unfold spec_weighted_sum
    ring
  rw [heq, if_pos (mul_nonneg (spec_ws_nonneg o m s c) (by norm_num))]

theorem spec_score_ge_one (o m s c : Nat) : 1 ≤ spec_complexity_score o m s c := by
  unfold spec_complexity_score
  refine le_min (by norm_num) ?_
  have h : (0 : ℤ) ≤ ⌊spec_weighted_sum o m s c * 10⌋ :=
    Int.floor_nonneg.mpr (mul_nonneg (spec_ws_nonneg o m s c) (by norm_num))
  omega

theorem spec_score_le_ten (o m s c : Nat) : spec_complexity_score o m s c ≤ 10 :=
  min_le_left _ _

theorem spec_ws_mono (o m s c o2 m2 s2 c2 : Nat)
    (ho : o ≤ o2) (hm : m ≤ m2) (hs : s ≤ s2) (hc : c ≤ c2) :
    spec_weighted_sum o m s c ≤ spec_weighted_sum o2 m2 s2 c2 := by
  unfold spec_weighted_sum
  have h1 : ((o : ℚ)) ≤ (o2 : ℚ) := by exact_mod_cast ho
  have h2 : ((m : ℚ)) ≤ (m2 : ℚ) := by exact_mod_cast hm
  have h3 : ((s : ℚ)) ≤ (s2 : ℚ) := by exact_mod_cast hs
  have h4 : ((c : ℚ)) ≤ (c2 : ℚ) := by exact_mod_cast hc
  gcongr

theorem spec_score_mono (o m s c o2 m2 s2 c2 : Nat)
    (ho : o ≤ o2) (hm : m ≤ m2) (hs : s ≤ s2) (hc : c ≤ c2) :
    spec_complexity_score o m s c ≤ spec_complexity_score o2 m2 s2 c2 := by
  unfold spec_complexity_score
  refine min_le_min (le_refl 10) (add_le_add_right (Int.floor_le_floor ?_) 1)
  have := spec_ws_mono o m s c o2 m2 s2 c2 ho hm hs hc
  nlinarith

theorem spec_score_zero : spec_complexity_score 0 0 0 0 = 1 := by
  unfold spec_complexity_score
  have hws : spec_weighted_sum 0 0 0 0 = 0 := by
    unfold spec_weighted_sum
    norm_num
  rw [hws]
  norm_num

/-- C9: the complexity score computed by get_process_complexity_score
equals the spec formula min(10, floor(weighted_sum*10)+1) over the four
counts with the fixed ceilings and weights, always lies in [1,10], is 1
when every count is zero, and is non-decreasing when the counts grow. -/
theorem complexity_score_props (o m s c o2 m2 s2 c2 : Nat)
    (ho : o ≤ o2) (hm : m ≤ m2) (hs : s ≤ s2) (hc : c ≤ c2) :
    complexity_of_counts o m s c = spec_complexity_score o m s c ∧
    1 ≤ complexity_of_counts o m s c ∧
    complexity_of_counts o m s c ≤ 10 ∧
    complexity_of_counts 0 0 0 0 = 1 ∧
    complexity_of_counts o m s c ≤ complexity_of_counts o2 m2 s2 c2 ∧
    (∀ (ops : List (String × Operation)) (ad : AnalysisData),
      get_process_complexity_score ops ad =
        complexity_of_counts ops.length ad.analysis.merge_points.length
          ad.analysis.split_points.length ad.analysis.critical_points.length) := by
  refine ⟨complexity_eq_spec o m s c, ?_, ?_, ?_, ?_, fun ops ad => rfl⟩
  · rw [complexity_eq_spec]
    exact spec_score_ge_one o m s c
  · rw [complexity_eq_spec]
    exact spec_score_le_ten o m s c
  · rw [complexity_eq_spec]
    exact spec_score_zero
  · rw [complexity_eq_spec, complexity_eq_spec]
    exact spec_score_mono o m s c o2 m2 s2 c2 ho hm hs hc

/-- Witness for C9 at concrete counts 0 ≤ 1 in every position. -/
theorem complexity_score_props_witness :
    complexity_of_counts 0 0 0 0 = spec_complexity_score 0 0 0 0 ∧
    1 ≤ complexity_of_counts 0 0 0 0 ∧
    complexity_of_counts 0 0 0 0 ≤ 10 ∧
    complexity_of_counts 0 0 0 0 = 1 ∧
    complexity_of_counts 0 0 0 0 ≤ complexity_of_counts 1 1 1 1 ∧
    (∀ (ops : List (String × Operation)) (ad : AnalysisData),
      get_process_complexity_score ops ad =
        complexity_of_counts ops.length ad.analysis.merge_points.length
          ad.analysis.split_points.length ad.analysis.critical_points.length) :=
  complexity_score_props 0 0 0 0 1 1 1 1 (by decide) (by decide) (by decide) (by decide)

-- ## C4: output_to_operation is the first-producer map over all_outputs

theorem insert_outputs_lookup (name : String) (item : String) (outs : List String) :
    ∀ m : List (String × String),
      (insert_outputs name outs m).lookup item =
        (m.lookup item).or (if item ≠ "" ∧ item ∈ outs then some name else none) := by
  induction outs with
  | nil => intro m; simp [insert_outputs]
  | cons out rest ih =>
      intro m
      simp only [insert_outputs]
      rw [ih]
      by_cases hcond : (out != "" && (m.lookup out).isNone) = true
      · rw [if_pos hcond]
        rw [List.lookup_append, Option.or_assoc]
        have hone2 : out ≠ "" := by
          intro he
          rw [he] at hcond
          simp at hcond
        congr 1
        by_cases hoi : out = item
        · subst hoi
          rw [List.lookup_cons]
          simp only [BEq.refl]
          rw [Option.or_some]
          rw [if_pos ⟨hone2, List.mem_cons_self out rest⟩]
        · rw [List.lookup_cons]
          have hne : (item == out) = false := by simpa using (fun h => hoi h.symm)
          simp only [hne, List.lookup_nil]
          rw [Option.none_or]
          have hmem : (item ∈ out :: rest) ↔ (item ∈ rest) := by
            rw [List.mem_cons]
            constructor
            · rintro (h | h)
              · exact absurd h.symm hoi
              · exact h
            · exact Or.inr
          simp only [hmem]
      · rw [if_neg hcond]
        by_cases hoi : item = out
        · subst hoi
          by_cases hie : item = ""
          · simp [hie]
          · have hlk : (m.lookup item) ≠ none := by
              intro hnone
              apply hcond
              simp [hnone, hie]
            obtain ⟨v, hv⟩ : ∃ v, m.lookup item = some v := by
              cases hvv : m.lookup item with
              | none => exact absurd hvv hlk
              | some v => exact ⟨v, rfl⟩
            rw [hv, Option.or_some, Option.or_some]
        · have hmem : (item ∈ out :: rest) ↔ (item ∈ rest) := by
            rw [List.mem_cons]
            constructor
            · rintro (h | h)
              · exact absurd h hoi
              · exact h
            · exact Or.inr
          simp only [hmem]

theorem build_output_lookup (item : String) : ∀ (ops : List (String × Operation))
    (m : List (String × String)),
    ((ops.foldl (fun m p => insert_outputs p.1 p.2.outputs m) m).lookup item)
      = (m.lookup item).or
          ((ops.find? (fun p => item != "" && p.2.outputs.contains item)).map Prod.fst) := by
  intro ops
  induction ops with
  | nil => intro m; simp
  | cons p rest ih =>
      intro m
      rw [List.foldl_cons, ih, insert_outputs_lookup, Option.or_assoc]
      congr 1
      by_cases hp : (item != "" && p.2.outputs.contains item) = true
      · rw [List.find?_cons_of_pos rest hp]
        have hp2 : item ≠ "" ∧ item ∈ p.2.outputs := by simpa using hp
        rw [if_pos hp2]
        simp [Option.or_some]
      · rw [List.find?_cons_of_neg rest hp]
        rw [if_neg (by
          intro hh
          apply hp
          simp [hh.1, hh.2])]
        rw [Option.none_or]

theorem find?_congr_mem {α : Type} (p q : α → Bool) :
    ∀ l : List α, (∀ x ∈ l, p x = q x) → l.find? p = l.find? q := by
  intro l
  induction l with
  | nil => intro _; rfl
  | cons x rest ih =>
      intro h
      by_cases hx : p x = true
      · rw [List.find?_cons_of_pos rest hx,
          List.find?_cons_of_pos rest (by rw [← h x (List.mem_cons_self x rest)]; exact hx)]
      · rw [List.find?_cons_of_neg rest hx,
          List.find?_cons_of_neg rest (by rw [← h x (List.mem_cons_self x rest)]; exact hx)]
        exact ih (fun y hy => h y (List.mem_cons_of_mem x hy))

/-- C4: under the guarantee that no operation lists the empty string as an
output (Operation construction enforces it), the output_to_operation map
returned by analyse_network has exactly the items of all_outputs as keys,
and maps every item to the first operation in insertion order whose
outputs contain it; later producers are never recorded. -/
theorem output_to_operation_first_producer (ops : List (String × Operation))
    (choices : Choices) (h : ∀ p ∈ ops, "" ∉ p.2.outputs) :
    (∀ item, (((analyse_network ops choices).output_to_operation).lookup item).isSome ↔
      item ∈ all_outputs ops) ∧
    (∀ item, ((analyse_network ops choices).output_to_operation).lookup item =
      (ops.find? (fun p => p.2.outputs.contains item)).map Prod.fst) := by
  have hchar : ∀ item, ((analyse_network ops choices).output_to_operation).lookup item =
      (ops.find? (fun p => p.2.outputs.contains item)).map Prod.fst := by
    intro item
    have hb : (analyse_network ops choices).output_to_operation =
        build_output_to_operation ops := rfl
    rw [hb]
    unfold build_output_to_operation
    rw [build_output_lookup]
    simp only [List.lookup_nil, Option.none_or]
    by_cases hie : item = ""
    · subst hie
      rw [List.find?_eq_none.mpr (fun p _ => by simp),
        List.find?_eq_none.mpr (fun p hp => by simpa using h p hp)]
    · congr 1
      refine find?_congr_mem _ _ ops (fun p _ => ?_)
      have : (item != "") = true := by simpa using hie
      rw [this, Bool.true_and]
  refine ⟨?_, hchar⟩
  intro item
  rw [hchar item]
  constructor
  · intro hsome
    have : (ops.find? (fun p => p.2.outputs.contains item)).isSome = true := by
      cases hv : ops.find? (fun p => p.2.outputs.contains item) with
      | none => rw [hv] at hsome; simp at hsome
      | some v => simp
    obtain ⟨p, hpmem, hpc⟩ := List.find?_isSome.mp this
    exact List.mem_flatMap.mpr ⟨p, hpmem, by simpa using hpc⟩
  · intro hmem
    obtain ⟨p, hpmem, hpo⟩ := List.mem_flatMap.mp hmem
    have : (ops.find? (fun p => p.2.outputs.contains item)).isSome = true :=
      List.find?_isSome.mpr ⟨p, hpmem, by simpa using hpo⟩
    cases hv : ops.find? (fun p => p.2.outputs.contains item) with
    | none => rw [hv] at this; simp at this
    | some v => simp [hv]

/-- Witness for C4 on two producers of the same item inserted A then B:
the recorded producer of "z" is A. -/
theorem output_to_operation_first_producer_witness :
    ((∀ item, (((analyse_network opsTwoProducers {}).output_to_operation).lookup item).isSome ↔
      item ∈ all_outputs opsTwoProducers) ∧
    (∀ item, ((analyse_network opsTwoProducers {}).output_to_operation).lookup item =
      (opsTwoProducers.find? (fun p => p.2.outputs.contains item)).map Prod.fst)) ∧
    ((analyse_network opsTwoProducers {}).output_to_operation).lookup "z" = some "A" :=
  ⟨output_to_operation_first_producer opsTwoProducers {} (by decide), by decide⟩

-- ## C1: super-critical-point membership

theorem keys_nodup_eq {β : Type} : ∀ {ops : List (String × β)},
    (ops.map Prod.fst).Nodup → ∀ {n : String} {a b : β},
    (n, a) ∈ ops → (n, b) ∈ ops → a = b := by
  intro ops
  induction ops with
  | nil => intro _ n a b ha; simp at ha
  | cons p rest ih =>
      intro hnd n a b ha hb
      rw [List.map_cons, List.nodup_cons] at hnd
      rcases List.mem_cons.mp ha with ha1 | ha1 <;> rcases List.mem_cons.mp hb with hb1 | hb1
      · rw [← ha1] at hb1
        exact (Prod.mk.injEq _ _ _ _).mp hb1.symm |>.2
      · exfalso
        apply hnd.1
        rw [← ha1]
        exact List.mem_map.mpr ⟨(n, b), hb1, rfl⟩
      · exfalso
        apply hnd.1
        rw [← hb1]
        exact List.mem_map.mpr ⟨(n, a), ha1, rfl⟩
      · exact ih hnd.2 ha1 hb1

/-- C1: with unique operation names, an operation is recorded as a
super-critical point by analyse_network exactly when it has at least one
output, its input count reaches critical_min_inputs, and the maximum
consumer count over its outputs reaches critical_min_reuse; an operation
with no outputs is never recorded. -/
theorem critical_point_membership_iff (ops : List (String × Operation)) (choices : Choices)
    (hnd : (ops.map Prod.fst).Nodup) (name : String) (op : Operation)
    (hmem : (name, op) ∈ ops) :
    (∃ cp ∈ (analyse_network ops choices).analysis.critical_points, cp.operation = name) ↔
      (op.outputs ≠ [] ∧ choices.critical_min_inputs ≤ op.inputs.length ∧
       choices.critical_min_reuse ≤
         maxNat (op.outputs.map (fun o => (input_to_operations ops o).length))) := by
  have hc : (analyse_network ops choices).analysis.critical_points =
      critical_points_calc ops choices (input_to_operations ops) := rfl
  rw [hc]
  unfold critical_points_calc
  constructor
  · rintro ⟨cp, hcp, hop⟩
    obtain ⟨p, hpmem, hfp⟩ := List.mem_filterMap.mp hcp
    by_cases hout : p.2.outputs.isEmpty = true
    · rw [if_pos hout] at hfp
      simp at hfp
    · rw [if_neg hout] at hfp
      by_cases hcond : (choices.critical_min_inputs ≤ p.2.inputs.length ∧
          choices.critical_min_reuse ≤
            maxNat (p.2.outputs.map (fun out => (input_to_operations ops out).length)))
      · rw [if_pos hcond] at hfp
        rw [Option.some.injEq] at hfp
        have hpn : p.1 = name := by rw [← hfp] at hop; exact hop
        have hpmem2 : (name, p.2) ∈ ops := by
          rw [← hpn]
          exact hpmem
        have hpe : op = p.2 := keys_nodup_eq hnd hmem hpmem2
        rw [hpe]
        refine ⟨?_, hcond⟩
        intro hnil
        apply hout
        rw [hnil]
        rfl
      · rw [if_neg hcond] at hfp
        simp at hfp
  · rintro ⟨h1, h2, h3⟩
    refine ⟨⟨name, op.inputs.length,
      maxNat (op.outputs.map (fun o => (input_to_operations ops o).length))⟩, ?_, rfl⟩
    apply List.mem_filterMap.mpr
    refine ⟨(name, op), hmem, ?_⟩
    rw [if_neg (by simpa [List.isEmpty_iff] using h1), if_pos ⟨h2, h3⟩]

/-- Witness for C1 with the default thresholds (3,3): the 3-input
operation with its single output consumed by 4 operations qualifies; the
same operation with 2 inputs does not. -/
theorem critical_point_membership_iff_witness :
    (∃ cp ∈ (analyse_network ops3in {}).analysis.critical_points, cp.operation = "A") ∧
    ¬ (∃ cp ∈ (analyse_network ops2in {}).analysis.critical_points, cp.operation = "A") :=
  ⟨(critical_point_membership_iff ops3in {} (by decide) "A" opA3 (by decide)).mpr (by decide),
   fun h => by
     have h2 := (critical_point_membership_iff ops2in {} (by decide) "A" opA2 (by decide)).mp h
     revert h2
     decide⟩

-- ## C2: one split point per qualifying (operation, output) pair

theorem sum_indicator_unique_key {β : Type} (name : String) (P : β → Prop)
    [DecidablePred P] :
    ∀ (l : List (String × β)), (l.map Prod.fst).Nodup → ∀ b : β, (name, b) ∈ l →
      (l.map (fun p => if p.1 = name ∧ P p.2 then 1 else 0)).sum =
        (if P b then 1 else 0) := by
  intro l
  induction l with
  | nil => intro _ b hb; simp at hb
  | cons p rest ih =>
      intro hnd b hb
      rw [List.map_cons, List.nodup_cons] at hnd
      rw [List.map_cons, List.sum_cons]
      rcases List.mem_cons.mp hb with hb1 | hb1
      · rw [← hb1]
        have hrest : (rest.map (fun p => if p.1 = name ∧ P p.2 then 1 else 0)).sum = 0 := by
          apply List.sum_eq_zero
          intro x hx
          obtain ⟨q, hq, hqx⟩ := List.mem_map.mp hx
          rw [← hqx]
          rw [if_neg]
          rintro ⟨hq1, _⟩
          apply hnd.1
          rw [← hb1]
          dsimp only
          rw [← hq1]
          exact List.mem_map.mpr ⟨q, hq, rfl⟩
        rw [hrest]
        by_cases hp : P b
        · rw [if_pos ⟨rfl, hp⟩, if_pos hp]
        · rw [if_neg (fun hh => hp hh.2), if_neg hp]
      · have hpn : ¬ p.1 = name := by
          intro he
          apply hnd.1
          rw [he]
          exact List.mem_map.mpr ⟨(name, b), hb1, rfl⟩
        rw [if_neg (fun hh => hpn hh.1), ih hnd.2 b hb1]
        omega

/-- C2: with unique operation names and duplicate-free output lists, the
analysis emits exactly one split point per (operation, output) pair whose
item has more than one consumer, and every split point records that
consumer count and consumer list. -/
theorem split_point_unique_per_pair (ops : List (String × Operation)) (choices : Choices)
    (hnd : (ops.map Prod.fst).Nodup) (hout : ∀ p ∈ ops, p.2.outputs.Nodup)
    (name : String) (op : Operation) (o : String) (hmem : (name, op) ∈ ops) :
    ((analyse_network ops choices).analysis.split_points.countP
        (fun sp => sp.source_operation == name && sp.output == o)) =
      (if o ∈ op.outputs ∧ (input_to_operations ops o).length > 1 then 1 else 0) ∧
    (∀ sp ∈ (analyse_network ops choices).analysis.split_points,
      sp.target_count = (input_to_operations ops sp.output).length ∧
      sp.targets = input_to_operations ops sp.output) := by
  have hsp : (analyse_network ops choices).analysis.split_points =
      ops.flatMap (fun p =>
        (p.2.outputs.filter (fun x => (input_to_operations ops x).length > 1)).map
          (fun x => SplitPoint.mk x p.1 ((input_to_operations ops x).length)
            (input_to_operations ops x))) := rfl
  constructor
  · rw [hsp, List.countP_flatMap]
    have hmapeq : ops.map (List.countP (fun sp => sp.source_operation == name && sp.output == o) ∘
        (fun p => (p.2.outputs.filter (fun x => (input_to_operations ops x).length > 1)).map
          (fun x => SplitPoint.mk x p.1 ((input_to_operations ops x).length)
            (input_to_operations ops x)))) =
        ops.map (fun p =>
          if p.1 = name ∧ (o ∈ p.2.outputs ∧ (input_to_operations ops o).length > 1)
          then 1 else 0) := by
      apply List.map_congr_left
      intro p hp
      simp only [Function.comp_def]
      rw [List.countP_map]
      simp only [Function.comp_def]
      by_cases hpn : p.1 = name
      · have hpred : (fun x : String => p.1 == name && x == o) =
            (fun x : String => x == o) := by
          funext x
          rw [hpn]
          simp
        rw [hpred]
        have hcount : List.countP (fun x : String => x == o)
            (p.2.outputs.filter (fun x => (input_to_operations ops x).length > 1)) =
            List.count o (p.2.outputs.filter (fun x => (input_to_operations ops x).length > 1)) :=
          rfl
        rw [hcount]
        by_cases hco : (input_to_operations ops o).length > 1
        · rw [List.count_filter (by simpa using hco)]
          by_cases ho : o ∈ p.2.outputs
          · rw [List.nodup_iff_count_eq_one.mp (hout p hp) o ho,
              if_pos ⟨hpn, ho, hco⟩]
          · rw [List.count_eq_zero.mpr ho, if_neg]
            rintro ⟨_, hh, _⟩
            exact ho hh
        · rw [List.count_eq_zero.mpr (fun hmm => hco (by
            have := (List.mem_filter.mp hmm).2
            simpa using this)), if_neg]
          rintro ⟨_, _, hh⟩
          exact hco hh
      · have hzero : List.countP (fun x : String => p.1 == name && x == o)
            (p.2.outputs.filter (fun x => (input_to_operations ops x).length > 1)) = 0 := by
          apply List.countP_eq_zero.mpr
          intro x hx
          simp [hpn]
        rw [hzero, if_neg (fun hh => hpn hh.1)]
    rw [hmapeq]
    exact sum_indicator_unique_key name
      (fun q : Operation => o ∈ q.outputs ∧ (input_to_operations ops o).length > 1)
      ops hnd op hmem
  · intro sp hspmem
    rw [hsp] at hspmem
    obtain ⟨p, hp, hin⟩ := List.mem_flatMap.mp hspmem
    obtain ⟨x, hx, hxe⟩ := List.mem_map.mp hin
    rw [← hxe]
    exact ⟨rfl, rfl⟩

/-- Witness for C2 on opsPQR: exactly one split point (P, z) exists and
its target data is the consumer list of z (count 2). -/
theorem split_point_unique_per_pair_witness :
    ((analyse_network opsPQR {}).analysis.split_points.countP
        (fun sp => sp.source_operation == "P" && sp.output == "z")) = 1 ∧
    (∀ sp ∈ (analyse_network opsPQR {}).analysis.split_points,
      sp.target_count = (input_to_operations opsPQR sp.output).length ∧
      sp.targets = input_to_operations opsPQR sp.output) := by
  have h := split_point_unique_per_pair opsPQR {} (by decide) (by decide) "P"
    { name := "P", inputs := [], outputs := ["z"] } "z" (by decide)
  refine ⟨?_, h.2⟩
  rw [h.1]
  decide

end BPMG
